import Mathlib

/-!
Shallow embedding of the wallet-page balance projection pipeline
(`src/problem3/exam/src/WalletPage.tsx`, `src/problem3/refactored.tsx`,
and the "optimal" variant appended to the exam file) and of the
`sum_to_n` functions of problem 1.

Modelling conventions:
* JavaScript finite numbers are modelled by `ℚ` (the inputs the data model
  admits are finite; overflow to infinity is not modelled).
* A JavaScript object used as a lookup table (`Record<string, number>`)
  is modelled as `String → Option ℚ`; `none` is the `undefined` miss.
* `prices[c] * amount` with a missing price is `undefined * amount = NaN`
  in JavaScript; a computation whose result is `NaN` is modelled as `none`
  in an `Option ℚ` result field.
* `Array.prototype.sort` (stable since ES2019) with a consistent comparator
  `cmp` is modelled as a stable merge sort with the boolean relation
  `fun a b => cmp a b ≤ 0` ("a may stay before b").
* Strings produced by `Number.prototype.toFixed` are modelled as `List Char`.
-/

/- The Batteries rational arithmetic operations are `@[irreducible]`,
which blocks `decide` on concrete rational computations; restore the
default reducibility for this file so that concrete runs of the pipeline
can be checked by kernel reduction. -/
attribute [local semireducible] Rat.mul Rat.add Rat.sub Rat.inv

/-- The static priority table of all three WalletPage variants
(`BLOCKCHAIN_PRIORITIES`): Osmosis 100, Ethereum 50, Arbitrum 30,
Zilliqa 20, Neo 20; a lookup miss is `none` (JS `undefined`). -/
def BLOCKCHAIN_PRIORITIES (blockchain : String) : Option ℤ :=
  if blockchain = "Osmosis" then some 100
  else if blockchain = "Ethereum" then some 50
  else if blockchain = "Arbitrum" then some 30
  else if blockchain = "Zilliqa" then some 20
  else if blockchain = "Neo" then some 20
  else none

/-- `DEFAULT_PRIORITY = -99`, the sentinel for unrecognized chains. -/
def DEFAULT_PRIORITY : ℤ := -99

/-- `getPriority`, identical in all three variants:
`BLOCKCHAIN_PRIORITIES[blockchain] ?? DEFAULT_PRIORITY`. -/
def getPriority (blockchain : String) : ℤ :=
  (BLOCKCHAIN_PRIORITIES blockchain).getD DEFAULT_PRIORITY

/-- `WalletBalance`: `{ currency: string, amount: number, blockchain: string }`. -/
structure WalletBalance where
  currency : String
  amount : ℚ
  blockchain : String
deriving DecidableEq, Repr

/-- A price table (`Record<string, number>`); `none` models a missing key. -/
def Prices : Type := String → Option ℚ

/-- ECMAScript stable `Array.prototype.sort` with an integer-valued
consistent comparator `cmp`: stable merge sort keeping `a` before `b`
when `cmp a b ≤ 0`. -/
def jsSort (cmp : α → α → ℤ) (l : List α) : List α :=
  l.mergeSort fun a b => decide (cmp a b ≤ 0)

/-- Decimal digit character: `0 ≤ d ≤ 9` renders as `'0'`..`'9'`. -/
def digitChar (d : ℕ) : Char := Char.ofNat (48 + d)

/-- Little-endian base-10 digits of the second argument; the first
argument is structural fuel, sufficient whenever it is at least the
number of digits (so in particular when it equals the number itself). -/
def natDigitsAux : ℕ → ℕ → List ℕ
  | 0, _ => []
  | _ + 1, 0 => []
  | fuel + 1, n + 1 => ((n + 1) % 10) :: natDigitsAux fuel ((n + 1) / 10)

/-- Little-endian base-10 digits of `n` (empty for `0`). -/
def natDigits (n : ℕ) : List ℕ := natDigitsAux n n

/-- Base-10 rendering of a natural number, most significant digit first. -/
def renderNat (n : ℕ) : List Char :=
  if n = 0 then ['0'] else (natDigits n).reverse.map digitChar

/-- The last `f` base-10 digits of `m`, zero padded to exactly `f` chars. -/
def padDigits (f m : ℕ) : List Char :=
  (List.range f).reverse.map fun i => digitChar (m / 10 ^ i % 10)

/-- `Number.prototype.toFixed(f)` on a finite value: per ECMA-262, the sign
is split off, the magnitude is scaled by `10^f` and rounded to the nearest
integer with ties to the larger integer (`⌊y + 1/2⌋`), and the digits are
rendered with a decimal point `f` digits from the right (no point when
`f = 0`, as for the no-argument call `toFixed()`). -/
def toFixedChars (f : ℕ) (x : ℚ) : List Char :=
  let sign : List Char := if x < 0 then ['-'] else []
  let n : ℕ := (Rat.floor (|x| * 10 ^ f + 1 / 2)).toNat
  if f = 0 then sign ++ renderNat n
  else sign ++ renderNat (n / 10 ^ f) ++ ['.'] ++ padDigits f (n % 10 ^ f)

/-- `true` iff the string has a decimal point followed by exactly two
digits: its last three characters are `'.'`, digit, digit (so the last
`'.'` of the string has exactly two characters, both digits, after it). -/
def hasTwoDecimals (s : List Char) : Bool :=
  match s.reverse with
  | b :: a :: c :: _ => c == '.' && a.isDigit && b.isDigit
  | _ => false

/-! ## Exam variant (`exam/src/WalletPage.tsx`, lines 60-124) -/

/-- The inline filter predicate of `sortedBalances` (exam lines 91-95):
`getPriority(balance.blockchain) > DEFAULT_PRIORITY && balance.amount > 0`. -/
def examFilterPred (balance : WalletBalance) : Bool :=
  decide (getPriority balance.blockchain > DEFAULT_PRIORITY) &&
    decide (balance.amount > 0)

/-- The inline three-way comparator of `sortedBalances` (exam lines
96-106): `-1` when the left priority is higher, `1` when the right
priority is higher, `0` otherwise. -/
def examComparator (lhs rhs : WalletBalance) : ℤ :=
  let leftPriority := getPriority lhs.blockchain
  let rightPriority := getPriority rhs.blockchain
  if leftPriority > rightPriority then -1
  else if rightPriority > leftPriority then 1
  else 0

/-- `sortedBalances` (exam lines 89-107): filter then stable sort.
The `useMemo` body reads only `balances` (and the chain priorities);
`prices` does not occur in it. -/
def examSortedBalances (balances : List WalletBalance) : List WalletBalance :=
  jsSort examComparator (balances.filter examFilterPred)

/-- One rendered `WalletRow` of the exam variant (lines 109-124). -/
structure ExamRow where
  key : String
  amount : ℚ
  usdValue : Option ℚ
  formattedAmount : List Char
deriving DecidableEq, Repr

/-- `rows` (exam lines 109-124): `usdValue = prices[currency] * amount`
(`none`, i.e. NaN, when the price is missing), `formattedAmount =
amount.toFixed()` (zero decimals), key `` `${blockchain}-${currency}` ``. -/
def examRows (balances : List WalletBalance) (prices : Prices) : List ExamRow :=
  (examSortedBalances balances).map fun balance =>
    { key := balance.blockchain ++ "-" ++ balance.currency
      amount := balance.amount
      usdValue := (prices balance.currency).map (· * balance.amount)
      formattedAmount := toFixedChars 0 balance.amount }

/-! ## Refactored variant (`refactored.tsx`, lines 36-94) -/

/-- `FormattedWalletBalance`: a `WalletBalance` plus the formatted amount
and the USD value (`none` models a NaN `usdValue`). -/
structure FormattedWalletBalance where
  currency : String
  amount : ℚ
  blockchain : String
  formatted : List Char
  usdValue : Option ℚ
deriving DecidableEq, Repr

/-- The inline filter predicate of the refactored `formattedBalances`
(lines 60-64): `balancePriority > -99 && balance.amount > 0`. -/
def refactoredFilterPred (balance : WalletBalance) : Bool :=
  decide (getPriority balance.blockchain > -99) && decide (balance.amount > 0)

/-- The inline subtraction comparator of the refactored `formattedBalances`
(lines 65-70): `rightPriority - leftPriority`. -/
def refactoredComparator (lhs rhs : WalletBalance) : ℤ :=
  let leftPriority := getPriority lhs.blockchain
  let rightPriority := getPriority rhs.blockchain
  rightPriority - leftPriority

/-- `formattedBalances` of `refactored.tsx` (lines 58-76): filter, stable
sort, then map to `FormattedWalletBalance` with `formatted =
amount.toFixed(2)` and `usdValue = prices[currency] * amount` (note: no
`?? 0`, so a missing price yields NaN, modelled as `none`). -/
def refactoredFormattedBalances (balances : List WalletBalance)
    (prices : Prices) : List FormattedWalletBalance :=
  (jsSort refactoredComparator (balances.filter refactoredFilterPred)).map
    fun balance =>
      { currency := balance.currency
        amount := balance.amount
        blockchain := balance.blockchain
        formatted := toFixedChars 2 balance.amount
        usdValue := (prices balance.currency).map (· * balance.amount) }

/-! ## Optimal variant (appended to the exam file, lines 160-207) -/

/-- `sortByPriorityDesc` (optimal variant lines 176-178):
`getPriority(rhs.blockchain) - getPriority(lhs.blockchain)`. -/
def sortByPriorityDesc (lhs rhs : WalletBalance) : ℤ :=
  getPriority rhs.blockchain - getPriority lhs.blockchain

/-- The inline filter predicate of the optimal `formattedBalances`
(lines 190-193). -/
def optimalFilterPred (balance : WalletBalance) : Bool :=
  decide (getPriority balance.blockchain > DEFAULT_PRIORITY) &&
    decide (balance.amount > 0)

/-- `formattedBalances` of the optimal variant (lines 188-207): filter,
stable sort by `sortByPriorityDesc`, then map with `formatted =
amount.toFixed(2)` and `usdValue = (prices[currency] ?? 0) * amount`
(always a defined number, hence always `some _`). -/
def optimalFormattedBalances (balances : List WalletBalance)
    (prices : Prices) : List FormattedWalletBalance :=
  (jsSort sortByPriorityDesc (balances.filter optimalFilterPred)).map
    fun balance =>
      { currency := balance.currency
        amount := balance.amount
        blockchain := balance.blockchain
        formatted := toFixedChars 2 balance.amount
        usdValue := some (((prices balance.currency).getD 0) * balance.amount) }

/-- Forgets the formatting fields of a `FormattedWalletBalance`,
recovering the underlying `WalletBalance` record. -/
def stripFormatting (f : FormattedWalletBalance) : WalletBalance :=
  { currency := f.currency, amount := f.amount, blockchain := f.blockchain }

/-! ## JavaScript numbers with non-finite values

To examine the pipeline on malformed input (non-finite amounts) the
refactored pipeline is re-embedded over a number type that carries the
IEEE-754 special values `NaN`, `Infinity` and `-Infinity`; finite values
stay exact rationals (float overflow to infinity is not modelled). -/

/-- A JavaScript number: NaN, `Infinity`, `-Infinity`, or a finite value. -/
inductive JsNum where
  | nan : JsNum
  | inf : JsNum
  | neginf : JsNum
  | num : ℚ → JsNum
deriving DecidableEq, Repr

/-- IEEE-754 multiplication on `JsNum`: anything times NaN is NaN,
an infinity times zero is NaN, an infinity times a nonzero finite value
(or another infinity) is an infinity of the product sign. -/
def JsNum.mul : JsNum → JsNum → JsNum
  | nan, _ => nan
  | _, nan => nan
  | inf, inf => inf
  | inf, neginf => neginf
  | neginf, inf => neginf
  | neginf, neginf => inf
  | inf, num q => if 0 < q then inf else if q < 0 then neginf else nan
  | num q, inf => if 0 < q then inf else if q < 0 then neginf else nan
  | neginf, num q => if 0 < q then neginf else if q < 0 then inf else nan
  | num q, neginf => if 0 < q then neginf else if q < 0 then inf else nan
  | num q, num r => num (q * r)

/-- The JavaScript comparison `x > 0`: false for NaN and `-Infinity`,
true for `Infinity`, and the rational comparison for finite values. -/
def JsNum.gtZero : JsNum → Bool
  | nan => false
  | inf => true
  | neginf => false
  | num q => decide (0 < q)

/-- `toFixed(f)` on a `JsNum`: ECMA-262 returns `"NaN"` for NaN and the
decimal string of an infinity (`String(x)`) for non-finite values. -/
def jsNumToFixedChars (f : ℕ) : JsNum → List Char
  | JsNum.nan => ['N', 'a', 'N']
  | JsNum.inf => ['I', 'n', 'f', 'i', 'n', 'i', 't', 'y']
  | JsNum.neginf => ['-', 'I', 'n', 'f', 'i', 'n', 'i', 't', 'y']
  | JsNum.num q => toFixedChars f q

/-- A `WalletBalance` whose amount is an arbitrary JavaScript number. -/
structure JsWalletBalance where
  currency : String
  amount : JsNum
  blockchain : String
deriving DecidableEq, Repr

/-- A price table over JavaScript semantics (missing key is `none`). -/
def JsPrices : Type := String → Option ℚ

/-- `FormattedWalletBalance` over JavaScript numbers. -/
structure JsFormattedWalletBalance where
  currency : String
  amount : JsNum
  blockchain : String
  formatted : List Char
  usdValue : JsNum
deriving DecidableEq, Repr

/-- The refactored filter predicate over `JsNum` amounts: `balance.amount
> 0` is the IEEE comparison, so a NaN amount fails the predicate. -/
def refactoredJsFilterPred (balance : JsWalletBalance) : Bool :=
  decide (getPriority balance.blockchain > -99) && balance.amount.gtZero

/-- The refactored subtraction comparator, which reads only the chains. -/
def refactoredJsComparator (lhs rhs : JsWalletBalance) : ℤ :=
  getPriority rhs.blockchain - getPriority lhs.blockchain

/-- `formattedBalances` of `refactored.tsx` re-embedded over JavaScript
number semantics: `usdValue = prices[currency] * amount`, where a missing
price gives `undefined * amount = NaN`. The pipeline is a total function
into a list — the source contains no validation, `throw`, or error path. -/
def refactoredJsFormattedBalances (balances : List JsWalletBalance)
    (prices : JsPrices) : List JsFormattedWalletBalance :=
  (jsSort refactoredJsComparator (balances.filter refactoredJsFilterPred)).map
    fun balance =>
      { currency := balance.currency
        amount := balance.amount
        blockchain := balance.blockchain
        formatted := jsNumToFixedChars 2 balance.amount
        usdValue :=
          match prices balance.currency with
          | none => JsNum.nan
          | some q => (JsNum.num q).mul balance.amount }

/-! ## Problem 1: `sum_to_n` (`src/unnamed/part_000`) -/

/-- `sum_to_n_a`: `(n * (n + 1)) / 2` with JavaScript division, exact on
rationals. -/
def sum_to_n_a (n : ℤ) : ℚ :=
  ((n : ℚ) * ((n : ℚ) + 1)) / 2

/-- The `for (let i = 1; i <= n; i++) sum += i` loop of `sum_to_n_b`,
with loop variable `i` and accumulator `sum`. -/
def sumLoop (n i sum : ℤ) : ℤ :=
  if i ≤ n then sumLoop n (i + 1) (sum + i) else sum
termination_by (n + 1 - i).toNat
decreasing_by simp_wf; omega

/-- `sum_to_n_b`: iterative accumulation starting from `i = 1`, `sum = 0`. -/
def sum_to_n_b (n : ℤ) : ℤ := sumLoop n 1 0

/-- `sum_to_n_c`: `if (n <= 0) return 0; return n + sum_to_n_c(n - 1)` —
defined by well-founded recursion on `n.toNat`, which is exactly the
termination argument for the JavaScript recursion on integer inputs. -/
def sum_to_n_c (n : ℤ) : ℤ :=
  if n ≤ 0 then 0 else n + sum_to_n_c (n - 1)
termination_by n.toNat
decreasing_by simp_wf; omega

/-! ## Helper lemmas -/

theorem examComparator_le_zero (a b : WalletBalance) :
    examComparator a b ≤ 0 ↔
      getPriority b.blockchain ≤ getPriority a.blockchain := by
  dsimp only [examComparator]
  split_ifs <;> omega

theorem refactoredComparator_le_zero (a b : WalletBalance) :
    refactoredComparator a b ≤ 0 ↔
      getPriority b.blockchain ≤ getPriority a.blockchain := by
  dsimp only [refactoredComparator]
  omega

theorem sortByPriorityDesc_le_zero (a b : WalletBalance) :
    sortByPriorityDesc a b ≤ 0 ↔
      getPriority b.blockchain ≤ getPriority a.blockchain := by
  dsimp only [sortByPriorityDesc]
  omega

theorem refactoredJsComparator_le_zero (a b : JsWalletBalance) :
    refactoredJsComparator a b ≤ 0 ↔
      getPriority b.blockchain ≤ getPriority a.blockchain := by
  dsimp only [refactoredJsComparator]
  omega

/-- Transitivity of the boolean relation `cmp a b ≤ 0` induced by a
comparator whose nonpositivity is a total priority comparison. -/
theorem jsSortLe_trans {α : Type} (pr : α → ℤ) (cmp : α → α → ℤ)
    (hc : ∀ a b, cmp a b ≤ 0 ↔ pr b ≤ pr a) :
    ∀ a b c : α, decide (cmp a b ≤ 0) → decide (cmp b c ≤ 0) →
      decide (cmp a c ≤ 0) := by
  intro a b c hab hbc
  simp only [decide_eq_true_eq, hc] at *
  omega

/-- Totality of the boolean relation `cmp a b ≤ 0`. -/
theorem jsSortLe_total {α : Type} (pr : α → ℤ) (cmp : α → α → ℤ)
    (hc : ∀ a b, cmp a b ≤ 0 ↔ pr b ≤ pr a) :
    ∀ a b : α, decide (cmp a b ≤ 0) || decide (cmp b a ≤ 0) := by
  intro a b
  simp only [Bool.or_eq_true, decide_eq_true_eq, hc]
  omega

/-- Membership is preserved by the sort stage. -/
theorem jsSort_mem {α : Type} (cmp : α → α → ℤ) (l : List α) (x : α) :
    x ∈ jsSort cmp l ↔ x ∈ l :=
  List.mem_mergeSort

/-- For a comparator whose nonpositivity is a total priority comparison,
the sorted output is pairwise ordered by descending priority. -/
theorem jsSort_pairwise {α : Type} (pr : α → ℤ) (cmp : α → α → ℤ)
    (hc : ∀ a b, cmp a b ≤ 0 ↔ pr b ≤ pr a) (l : List α) :
    (jsSort cmp l).Pairwise fun a b => pr b ≤ pr a := by
  have hs : (l.mergeSort fun a b => decide (cmp a b ≤ 0)).Pairwise
      (fun a b => decide (cmp a b ≤ 0) = true) :=
    List.sorted_mergeSort (jsSortLe_trans pr cmp hc) (jsSortLe_total pr cmp hc) l
  exact hs.imp fun h => (hc _ _).mp (by simpa using h)

/-- Stability of the sort stage: a pair in order in the input whose
priorities are equal is still in that order in the output. -/
theorem jsSort_pair_stable {α : Type} (pr : α → ℤ) (cmp : α → α → ℤ)
    (hc : ∀ a b, cmp a b ≤ 0 ↔ pr b ≤ pr a) (l : List α) (a b : α)
    (hpr : pr a = pr b) (hsub : List.Sublist [a, b] l) :
    List.Sublist [a, b] (jsSort cmp l) := by
  apply List.pair_sublist_mergeSort
    (jsSortLe_trans pr cmp hc) (jsSortLe_total pr cmp hc)
    (by simp only [decide_eq_true_eq, hc]; omega)
    hsub

/-! ## Claim theorems -/

/-- C6: `getPriority` is a total function (it is defined for every string
and, being a Lean function, never fails or throws); it returns the
configured priorities Osmosis 100, Ethereum 50, Arbitrum 30, Zilliqa 20,
Neo 20, returns the sentinel `DEFAULT_PRIORITY = -99` on every other
string, and the sentinel is strictly lower than every configured
priority (and a lower bound of the whole range). -/
theorem getPriority_total_spec :
    getPriority "Osmosis" = 100 ∧ getPriority "Ethereum" = 50 ∧
    getPriority "Arbitrum" = 30 ∧ getPriority "Zilliqa" = 20 ∧
    getPriority "Neo" = 20 ∧ DEFAULT_PRIORITY = -99 ∧
    (∀ s : String, s ≠ "Osmosis" → s ≠ "Ethereum" → s ≠ "Arbitrum" →
      s ≠ "Zilliqa" → s ≠ "Neo" → getPriority s = DEFAULT_PRIORITY) ∧
    (∀ s : String, DEFAULT_PRIORITY ≤ getPriority s) ∧
    (∀ s : String, (s = "Osmosis" ∨ s = "Ethereum" ∨ s = "Arbitrum" ∨
      s = "Zilliqa" ∨ s = "Neo") → DEFAULT_PRIORITY < getPriority s) := by
  refine ⟨rfl, rfl, rfl, rfl, rfl, rfl, ?_, ?_, ?_⟩
  · intro s h1 h2 h3 h4 h5
    simp [getPriority, BLOCKCHAIN_PRIORITIES, h1, h2, h3, h4, h5]
  · intro s
    simp only [getPriority, BLOCKCHAIN_PRIORITIES, DEFAULT_PRIORITY]
    split_ifs <;> simp
  · rintro s (rfl | rfl | rfl | rfl | rfl) <;> decide

/-- Witness for C6: the unrecognized chain `"Bitcoin"` maps to the
sentinel. -/
theorem getPriority_total_spec_witness :
    getPriority "Bitcoin" = DEFAULT_PRIORITY :=
  getPriority_total_spec.2.2.2.2.2.2.1 "Bitcoin"
    (by decide) (by decide) (by decide) (by decide) (by decide)

theorem digitChar_isDigit (d : ℕ) (h : d < 10) :
    (digitChar d).isDigit = true := by
  interval_cases d <;> decide

theorem hasTwoDecimals_append (A : List Char) (d₁ d₂ : Char)
    (h₁ : d₁.isDigit = true) (h₂ : d₂.isDigit = true) :
    hasTwoDecimals (A ++ ['.', d₁, d₂]) = true := by
  unfold hasTwoDecimals
  rw [List.reverse_append]
  simp [h₁, h₂]

theorem padDigits_two (m : ℕ) :
    padDigits 2 m = [digitChar (m / 10 % 10), digitChar (m % 10)] := by
  simp [padDigits, List.range_succ]

/-- Every string produced by `toFixed(2)` ends in a decimal point
followed by exactly two digits. -/
theorem hasTwoDecimals_toFixedChars (x : ℚ) :
    hasTwoDecimals (toFixedChars 2 x) = true := by
  unfold toFixedChars
  norm_num
  rw [padDigits_two]
  rw [← List.append_assoc]
  exact hasTwoDecimals_append _ _ _
    (digitChar_isDigit _ (Nat.mod_lt _ (by norm_num)))
    (digitChar_isDigit _ (Nat.mod_lt _ (by norm_num)))

/-- C2: the outcome of the filter and sort stages — which balances are
retained and in which order — is the same for any two price tables: for
every variant, projecting the priced output rows down to the underlying
balance data (key and amount for the exam rows, the full
currency/amount/blockchain record for the other variants) yields
identical sequences under any two price tables. -/
theorem filterSort_price_independent :
    (∀ (bs : List WalletBalance) (p₁ p₂ : Prices),
      (examRows bs p₁).map (fun r => (r.key, r.amount)) =
        (examRows bs p₂).map (fun r => (r.key, r.amount))) ∧
    (∀ (bs : List WalletBalance) (p₁ p₂ : Prices),
      (refactoredFormattedBalances bs p₁).map stripFormatting =
        (refactoredFormattedBalances bs p₂).map stripFormatting) ∧
    (∀ (bs : List WalletBalance) (p₁ p₂ : Prices),
      (optimalFormattedBalances bs p₁).map stripFormatting =
        (optimalFormattedBalances bs p₂).map stripFormatting) := by
  refine ⟨?_, ?_, ?_⟩ <;> intro bs p₁ p₂ <;>
    simp [examRows, refactoredFormattedBalances, optimalFormattedBalances,
      stripFormatting, List.map_map, Function.comp]

/-- C3: the filter stage retains exactly those balances whose chain
priority is strictly greater than the sentinel and whose amount is
strictly positive; all other balances are dropped silently (the pipeline
is a total function with no error path), so every balance reaching the
output has a positive amount and a chain priority above the sentinel. -/
theorem filter_retains_exactly :
    (∀ balance : WalletBalance,
      (examFilterPred balance = true ↔
        getPriority balance.blockchain > DEFAULT_PRIORITY ∧
          balance.amount > 0) ∧
      (refactoredFilterPred balance = true ↔
        getPriority balance.blockchain > -99 ∧ balance.amount > 0)) ∧
    (∀ (bs : List WalletBalance) (b : WalletBalance),
      b ∈ examSortedBalances bs ↔
        b ∈ bs ∧ getPriority b.blockchain > DEFAULT_PRIORITY ∧
          b.amount > 0) ∧
    (∀ (bs : List WalletBalance) (p : Prices) (r : FormattedWalletBalance),
      r ∈ refactoredFormattedBalances bs p →
        r.amount > 0 ∧ getPriority r.blockchain > -99) := by
  refine ⟨?_, ?_, ?_⟩
  · intro balance
    constructor <;>
      simp [examFilterPred, refactoredFilterPred, and_comm]
  · intro bs b
    unfold examSortedBalances
    rw [jsSort_mem, List.mem_filter]
    simp [examFilterPred, and_assoc]
  · intro bs p r hr
    unfold refactoredFormattedBalances at hr
    obtain ⟨b, hb, rfl⟩ := List.mem_map.mp hr
    rw [jsSort_mem, List.mem_filter] at hb
    have := hb.2
    simp only [refactoredFilterPred, Bool.and_eq_true, decide_eq_true_eq]
      at this
    exact ⟨this.2, this.1⟩

/-- C4: in the output of every variant, each adjacent pair `(a, b)`
satisfies `getPriority a.blockchain ≥ getPriority b.blockchain`: the
retained balances are ordered by chain priority descending. -/
theorem output_sorted_by_priority_desc :
    ∀ (bs : List WalletBalance) (p : Prices),
      (examSortedBalances bs).Chain'
        (fun a b => getPriority b.blockchain ≤ getPriority a.blockchain) ∧
      (refactoredFormattedBalances bs p).Chain'
        (fun a b => getPriority b.blockchain ≤ getPriority a.blockchain) ∧
      (optimalFormattedBalances bs p).Chain'
        (fun a b => getPriority b.blockchain ≤ getPriority a.blockchain) := by
  intro bs p
  refine ⟨?_, ?_, ?_⟩
  · exact (jsSort_pairwise (fun b => getPriority b.blockchain)
      examComparator examComparator_le_zero _).chain'
  · refine (List.Pairwise.map _ ?_ (jsSort_pairwise
      (fun b => getPriority b.blockchain) refactoredComparator
      refactoredComparator_le_zero (bs.filter refactoredFilterPred))).chain'
    intro a b h
    exact h
  · refine (List.Pairwise.map _ ?_ (jsSort_pairwise
      (fun b => getPriority b.blockchain) sortByPriorityDesc
      sortByPriorityDesc_le_zero (bs.filter optimalFilterPred))).chain'
    intro a b h
    exact h

/-- C5: every comparator is a total function into the integers (so it
always returns a defined numeric result) and returns exactly `0` on any
pair of balances with equal chain priority; the modelled sort is stable:
two retained balances of equal priority that appear in order in the
filtered list still appear in that order in the sorted output. -/
theorem comparator_zero_and_sort_stable :
    (∀ a b : WalletBalance,
      getPriority a.blockchain = getPriority b.blockchain →
        examComparator a b = 0 ∧ refactoredComparator a b = 0 ∧
          sortByPriorityDesc a b = 0) ∧
    (∀ (bs : List WalletBalance) (a b : WalletBalance),
      getPriority a.blockchain = getPriority b.blockchain →
      List.Sublist [a, b] (bs.filter examFilterPred) →
      List.Sublist [a, b] (examSortedBalances bs)) ∧
    (∀ (bs : List WalletBalance) (a b : WalletBalance),
      getPriority a.blockchain = getPriority b.blockchain →
      List.Sublist [a, b] (bs.filter refactoredFilterPred) →
      List.Sublist [a, b]
        (jsSort refactoredComparator (bs.filter refactoredFilterPred))) := by
  refine ⟨?_, ?_, ?_⟩
  · intro a b h
    dsimp only [examComparator, refactoredComparator, sortByPriorityDesc]
    refine ⟨?_, ?_, ?_⟩ <;> ((try split_ifs) <;> omega)
  · intro bs a b h hsub
    exact jsSort_pair_stable (fun b => getPriority b.blockchain)
      examComparator examComparator_le_zero _ a b h hsub
  · intro bs a b h hsub
    exact jsSort_pair_stable (fun b => getPriority b.blockchain)
      refactoredComparator refactoredComparator_le_zero _ a b h hsub

/-- Witness for C5: the two equal-priority balances Zilliqa (20) and
Neo (20) of the spec scenario stay in input order through the exam sort. -/
theorem comparator_zero_and_sort_stable_witness :
    List.Sublist
      [⟨"ZIL", 5, "Zilliqa"⟩, ⟨"NEO", 3, "Neo"⟩]
      (examSortedBalances [⟨"ZIL", 5, "Zilliqa"⟩, ⟨"NEO", 3, "Neo"⟩]) :=
  comparator_zero_and_sort_stable.2.1
    [⟨"ZIL", 5, "Zilliqa"⟩, ⟨"NEO", 3, "Neo"⟩] _ _ (by decide)
    (by simp [examFilterPred, getPriority, BLOCKCHAIN_PRIORITIES,
      DEFAULT_PRIORITY])

/-- C9: the three-way if/else comparator of the exam `WalletPage` and the
subtraction comparator of the refactored and optimal variants are
sign-equivalent on every pair of balances, and the sort stages they
induce produce the same ordering on every input list (the refactored
inline comparator and the optimal `sortByPriorityDesc` are moreover equal
outright). -/
theorem comparator_sign_equivalence :
    (∀ a b : WalletBalance,
      (examComparator a b < 0 ↔ sortByPriorityDesc a b < 0) ∧
      (examComparator a b = 0 ↔ sortByPriorityDesc a b = 0) ∧
      (0 < examComparator a b ↔ 0 < sortByPriorityDesc a b)) ∧
    (∀ a b : WalletBalance, refactoredComparator a b = sortByPriorityDesc a b) ∧
    (∀ l : List WalletBalance,
      jsSort examComparator l = jsSort sortByPriorityDesc l) := by
  refine ⟨?_, ?_, ?_⟩
  · intro a b
    dsimp only [examComparator, sortByPriorityDesc]
    refine ⟨?_, ?_, ?_⟩ <;>
      (split_ifs <;>
        (try simp only [false_iff, iff_false, true_iff, iff_true]) <;> omega)
  · intro a b
    dsimp only [refactoredComparator, sortByPriorityDesc]
  · intro l
    unfold jsSort
    congr 1
    funext a b
    rw [decide_eq_decide, examComparator_le_zero, sortByPriorityDesc_le_zero]

/-- Witness for C3: the Ethereum balance of amount 10 passes the filter,
so the corresponding output row has positive amount and a priority above
the sentinel. -/
theorem filter_retains_exactly_witness :
    (10 : ℚ) > 0 ∧ getPriority "Ethereum" > -99 :=
  filter_retains_exactly.2.2 [⟨"ETH", 10, "Ethereum"⟩] (fun _ => none)
    ⟨"ETH", 10, "Ethereum", toFixedChars 2 10, none⟩
    (by simp [refactoredFormattedBalances, jsSort, refactoredFilterPred,
      getPriority, BLOCKCHAIN_PRIORITIES])

/-- C1: in the refactored variant the claim fails — `usdValue` is
`prices[currency] * amount` with no `?? 0` fallback, so the balance
`{currency := "ETH", amount := 10, blockchain := "Ethereum"}` under an
empty price table yields `usdValue = NaN` (modelled `none`), not `0`.
The optimal variant satisfies the claimed contract: every output row has
`usdValue = some ((prices[currency] ?? 0) * amount)`, which is always a
defined number. -/
theorem usdValue_missing_price :
    ((refactoredFormattedBalances [⟨"ETH", 10, "Ethereum"⟩]
        (fun _ => none)).map FormattedWalletBalance.usdValue = [none]) ∧
    (∀ (bs : List WalletBalance) (p : Prices) (r : FormattedWalletBalance),
      r ∈ optimalFormattedBalances bs p →
        r.usdValue = some (((p r.currency).getD 0) * r.amount)) := by
  constructor
  · simp [refactoredFormattedBalances, jsSort, refactoredFilterPred,
      getPriority, BLOCKCHAIN_PRIORITIES]
  · intro bs p r hr
    unfold optimalFormattedBalances at hr
    obtain ⟨b, hb, rfl⟩ := List.mem_map.mp hr
    rfl

/-- Witness for C1: the optimal pipeline on the Ethereum balance with an
empty price table produces `usdValue = some 0`. -/
theorem usdValue_missing_price_witness :
    (⟨"ETH", 10, "Ethereum", toFixedChars 2 10,
        some 0⟩ : FormattedWalletBalance).usdValue =
      some ((((fun _ => none : Prices) "ETH").getD 0) * (10 : ℚ)) :=
  usdValue_missing_price.2 [⟨"ETH", 10, "Ethereum"⟩] (fun _ => none)
    ⟨"ETH", 10, "Ethereum", toFixedChars 2 10, some 0⟩
    (by simp [optimalFormattedBalances, jsSort, optimalFilterPred,
      getPriority, BLOCKCHAIN_PRIORITIES, DEFAULT_PRIORITY])

/-- C7: the claim holds for the refactored and optimal variants — every
output row's `formatted` string, produced by `toFixed(2)`, has exactly
two decimal digits — but the exam variant's `rows` uses the no-argument
`toFixed()`, which renders zero decimals: at the failing input
`{currency := "ETH", amount := 10, blockchain := "Ethereum"}` the exam
row renders `"10"`, which has no two-decimal suffix. -/
theorem two_decimal_formatting :
    ((examRows [⟨"ETH", 10, "Ethereum"⟩] (fun _ => none)).map
        ExamRow.formattedAmount = [['1', '0']]) ∧
    hasTwoDecimals ['1', '0'] = false ∧
    (∀ x : ℚ, hasTwoDecimals (toFixedChars 2 x) = true) ∧
    (∀ (bs : List WalletBalance) (p : Prices) (r : FormattedWalletBalance),
      r ∈ refactoredFormattedBalances bs p →
        hasTwoDecimals r.formatted = true) ∧
    (∀ (bs : List WalletBalance) (p : Prices) (r : FormattedWalletBalance),
      r ∈ optimalFormattedBalances bs p →
        hasTwoDecimals r.formatted = true) := by
  refine ⟨?_, by decide, hasTwoDecimals_toFixedChars, ?_, ?_⟩
  · simp [examRows, examSortedBalances, jsSort, examFilterPred,
      getPriority, BLOCKCHAIN_PRIORITIES, DEFAULT_PRIORITY, List.filter]
    decide
  · intro bs p r hr
    unfold refactoredFormattedBalances at hr
    obtain ⟨b, hb, rfl⟩ := List.mem_map.mp hr
    exact hasTwoDecimals_toFixedChars b.amount
  · intro bs p r hr
    unfold optimalFormattedBalances at hr
    obtain ⟨b, hb, rfl⟩ := List.mem_map.mp hr
    exact hasTwoDecimals_toFixedChars b.amount

/-- Witness for C7: the refactored row for the Ethereum balance carries a
two-decimal formatted string. -/
theorem two_decimal_formatting_witness :
    hasTwoDecimals (toFixedChars 2 (10 : ℚ)) = true :=
  two_decimal_formatting.2.2.2.1 [⟨"ETH", 10, "Ethereum"⟩] (fun _ => none)
    ⟨"ETH", 10, "Ethereum", toFixedChars 2 10, none⟩
    (by simp [refactoredFormattedBalances, jsSort, refactoredFilterPred,
      getPriority, BLOCKCHAIN_PRIORITIES])

/-- C8 counterexample: on the malformed balance
`{currency := "ETH", amount := Infinity, blockchain := "Ethereum"}` with
an empty price table, the (refactored) pipeline raises no validation
error — it is a total function with no error channel — and silently
emits a row whose `usdValue` is `NaN` (`undefined * Infinity`), exactly
what the claim says cannot happen. -/
theorem pipeline_silent_nan :
    (refactoredJsFormattedBalances [⟨"ETH", JsNum.inf, "Ethereum"⟩]
        (fun _ => none)).map JsFormattedWalletBalance.usdValue =
      [JsNum.nan] := by
  simp [refactoredJsFormattedBalances, jsSort, refactoredJsFilterPred,
    getPriority, BLOCKCHAIN_PRIORITIES, JsNum.gtZero]

/-- C8 (amended): the pipeline performs no input validation and never
raises an error; a balance whose amount is `NaN` is silently dropped by
the positivity filter (`NaN > 0` is false), so every emitted row has a
JavaScript-positive, non-`NaN` amount, while non-finite (`Infinity`)
amounts pass the filter and flow through to the output. -/
theorem pipeline_no_validation :
    ∀ (bs : List JsWalletBalance) (p : JsPrices)
      (r : JsFormattedWalletBalance),
      r ∈ refactoredJsFormattedBalances bs p →
        r.amount.gtZero = true ∧ r.amount ≠ JsNum.nan := by
  intro bs p r hr
  unfold refactoredJsFormattedBalances at hr
  obtain ⟨b, hb, rfl⟩ := List.mem_map.mp hr
  rw [jsSort_mem, List.mem_filter] at hb
  have hp := hb.2
  simp only [refactoredJsFilterPred, Bool.and_eq_true, decide_eq_true_eq]
    at hp
  refine ⟨hp.2, ?_⟩
  intro hnan
  rw [show (⟨b.currency, b.amount, b.blockchain, jsNumToFixedChars 2 b.amount,
    match p b.currency with
    | none => JsNum.nan
    | some q => (JsNum.num q).mul b.amount⟩ :
      JsFormattedWalletBalance).amount = b.amount from rfl] at hnan
  rw [hnan] at hp
  simp [JsNum.gtZero] at hp

/-- Witness for C8: the Infinity-amount balance passes the filter and its
row is emitted (with a non-`NaN` amount). -/
theorem pipeline_no_validation_witness :
    JsNum.gtZero JsNum.inf = true ∧ JsNum.inf ≠ JsNum.nan :=
  pipeline_no_validation [⟨"ETH", JsNum.inf, "Ethereum"⟩] (fun _ => none)
    ⟨"ETH", JsNum.inf, "Ethereum", jsNumToFixedChars 2 JsNum.inf, JsNum.nan⟩
    (by simp [refactoredJsFormattedBalances, jsSort, refactoredJsFilterPred,
      getPriority, BLOCKCHAIN_PRIORITIES, JsNum.gtZero])

/-- Closed form of the accumulation loop: starting at counter `i` with
accumulator `sum`, the loop returns `sum` plus the sum of the integers
from `i` to `n`. -/
theorem sumLoop_closed_aux (n : ℤ) (k : ℕ) :
    ∀ i sum : ℤ, (n + 1 - i).toNat ≤ k →
      2 * sumLoop n i sum =
        if i ≤ n then 2 * sum + (n + 1 - i) * (i + n) else 2 * sum := by
  induction k with
  | zero =>
    intro i sum hk
    have h : ¬i ≤ n := by omega
    rw [sumLoop, if_neg h, if_neg h]
  | succ k ih =>
    intro i sum hk
    by_cases h : i ≤ n
    · rw [sumLoop, if_pos h, if_pos h, ih (i + 1) (sum + i) (by omega)]
      split_ifs with h2
      · ring
      · have hi : i = n := by omega
        subst hi
        ring
    · rw [sumLoop, if_neg h, if_neg h]

theorem sumLoop_closed (n i sum : ℤ) :
    2 * sumLoop n i sum =
      if i ≤ n then 2 * sum + (n + 1 - i) * (i + n) else 2 * sum :=
  sumLoop_closed_aux n (n + 1 - i).toNat i sum le_rfl

/-- Closed form of the recursive implementation on the naturals. -/
theorem sum_to_n_c_closed_nat (k : ℕ) :
    2 * sum_to_n_c (k : ℤ) = (k : ℤ) * ((k : ℤ) + 1) := by
  induction k with
  | zero => rw [sum_to_n_c]; norm_num
  | succ k ih =>
    rw [sum_to_n_c, if_neg (by push_cast; omega)]
    push_cast
    have harg : ((k : ℤ) + 1) - 1 = (k : ℤ) := by ring
    rw [harg]
    linear_combination ih

/-- C10: on every non-negative integer input the three `sum_to_n`
implementations agree and compute `n * (n + 1) / 2`; moreover the
recursive `sum_to_n_c` satisfies its defining equation on every integer
(it is total, its Lean embedding terminating by well-founded recursion
on `n.toNat` exactly as the JavaScript recursion does) and returns `0`
for every `n ≤ 0`. -/
theorem sum_to_n_equivalence :
    (∀ n : ℤ, 0 ≤ n →
      sum_to_n_a n = ((sum_to_n_b n : ℤ) : ℚ) ∧
      sum_to_n_b n = sum_to_n_c n ∧
      sum_to_n_a n = ((n : ℚ) * ((n : ℚ) + 1)) / 2) ∧
    (∀ n : ℤ,
      sum_to_n_c n = if n ≤ 0 then 0 else n + sum_to_n_c (n - 1)) ∧
    (∀ n : ℤ, n ≤ 0 → sum_to_n_c n = 0) := by
  have hb : ∀ n : ℤ, 0 ≤ n → 2 * sum_to_n_b n = n * (n + 1) := by
    intro n hn
    rw [sum_to_n_b, sumLoop_closed]
    split_ifs with h
    · ring
    · have h0 : n = 0 := by omega
      subst h0
      norm_num
  have hc : ∀ n : ℤ, 0 ≤ n → 2 * sum_to_n_c n = n * (n + 1) := by
    intro n hn
    lift n to ℕ using hn
    exact sum_to_n_c_closed_nat n
  refine ⟨?_, ?_, ?_⟩
  · intro n hn
    have hbn := hb n hn
    have hcn := hc n hn
    refine ⟨?_, by omega, rfl⟩
    unfold sum_to_n_a
    have hcast : (2 : ℚ) * ((sum_to_n_b n : ℤ) : ℚ) = (n : ℚ) * ((n : ℚ) + 1) := by
      exact_mod_cast hbn
    field_simp
    linarith [hcast]
  · intro n
    conv_lhs => rw [sum_to_n_c]
  · intro n hn
    rw [sum_to_n_c, if_pos hn]

/-- Witness for C10: at `n = 5` all three implementations return 15. -/
theorem sum_to_n_equivalence_witness :
    sum_to_n_a 5 = ((sum_to_n_b 5 : ℤ) : ℚ) ∧
    sum_to_n_b 5 = sum_to_n_c 5 ∧
    sum_to_n_a 5 = ((5 : ℚ) * ((5 : ℚ) + 1)) / 2 :=
  sum_to_n_equivalence.1 5 (by norm_num)
